import Mathlib

/-!
Shallow embedding of the session-pool core of the playable-backend
repository (Go).  The embedded functions follow the Go source:

* `internal/session` — `Session`, `SessionStatus`, `Config`, and
  `LocalSessionManager` with its operations (`Release`, `SetWarmed`,
  `ListSessions`, `cleanupExpired`, `syncRunningSession`,
  `ensureMinPoolSize`, `backgroundSync` tick, `Start`/`Stop`).
* `internal/anbox` — the `SessionDetails` / `CreateSessionRequest`
  wire records consumed by the pool.
* `internal/game` — `GameInstance` and the fleet `Manager`.

Modelling conventions:

* `time.Time` values and `time.Duration` values are integers
  (nanoseconds); `t.After(u)` is `t > u`, `t.Sub(u)` is `t - u`.
* The Go map `map[string]*Session` is modelled as a `List Session`;
  lookups go by the `id` field.  Map iteration order is unspecified in
  Go, so list order carries no meaning beyond determinism of the model.
* The Anbox client (the fabric adapter) is a pure behaviour record
  `AdapterModel`: the result each adapter call would return.
* Effects that the Go code performs besides returning (adapter delete
  calls, spawned create requests, log warnings) are made explicit as
  fields of the outcome structures, so that theorems can talk about
  which calls a code path issues.
-/

/-- Lifecycle status of a pool session (Go `session.SessionStatus`).
The legacy `Reclaiming` value is never assigned by the core and the
claims do not mention it, so it is not modelled. -/
inductive SessionStatus where
  | cold
  | warming
  | warmed
  | inUse
deriving DecidableEq

/-- Go `anbox.StunServer`. -/
structure StunServer where
  urls : List String
  username : String
  password : String
deriving DecidableEq

/-- Go `anbox.SessionDetails` — the remote view of a session. -/
structure SessionDetails where
  id : String
  region : String
  url : String
  stunServers : List StunServer
  status : String
  joinable : Bool
deriving DecidableEq

/-- Go `anbox.Screen`. -/
structure Screen where
  width : Int
  height : Int
  density : Int
  fps : Int
deriving DecidableEq

/-- Go `anbox.CreateSessionRequest`. -/
structure CreateSessionRequest where
  app : String
  appVersion : Int
  ephemeral : Bool
  extraData : String
  idleTimeMin : Int
  joinable : Bool
  screen : Screen
deriving DecidableEq

/-- Go `session.ScreenConfig`. -/
structure ScreenConfig where
  width : Int
  height : Int
  density : Int
  fps : Int
deriving DecidableEq

/-- Go `session.Config`.  `min` and `max` are Go `int` values, the
durations are `time.Duration` values; all are modelled as `Int`. -/
structure Config where
  gameName : String
  min : Int
  max : Int
  sessionTTL : Int
  heartbeatTimeout : Int
  syncInterval : Int
  screenConfig : ScreenConfig
deriving DecidableEq

/-- Go `session.Session` — one entry of the pool table. -/
structure Session where
  id : String
  game : String
  status : SessionStatus
  anbox : Option SessionDetails
  gatewayURL : String
  authToken : String
  expiresAt : Int
  lastHeartbeat : Int
  createdAt : Int
deriving DecidableEq

/-- Behaviour of the Anbox client (`session.AnboxClient`): the result
each adapter call would return.  `none` models a nil Go error,
`some msg` an error.  `listResult` is the `GetAllRunningSession`
result. -/
structure AdapterModel where
  deleteResult : String → Option String
  createResult : Option String
  listResult : Except String (List SessionDetails)
  gatewayURL : String
  authToken : String

/-- Lookup of `m.cache[id]` in the list model of the session map. -/
def findSession (cache : List Session) (id : String) : Option Session :=
  cache.find? (fun s => s.id == id)

/-- Go `delete(m.cache, id)` in the list model of the session map. -/
def removeSession (cache : List Session) (id : String) : List Session :=
  cache.filter (fun s => !(s.id == id))

/-- Outcome of `LocalSessionManager.Release`: the new table, the remote
ids passed to adapter `Delete`, and the returned Go error. -/
structure ReleaseOutcome where
  cache : List Session
  deletes : List String
  result : Option String
deriving DecidableEq

/-- Go `LocalSessionManager.Release` (part_003 lines 227-246): look the
session up; if absent return a not-found error; otherwise remove it from
the table and, when it has an Anbox link, return the result of the
adapter `Delete` call on the remote id; without a link return nil. -/
def Release (ad : AdapterModel) (cache : List Session) (id : String) : ReleaseOutcome :=
  match findSession cache id with
  | none => ⟨cache, [], some ("session " ++ id ++ " not found")⟩
  | some s =>
    let cache1 := removeSession cache id
    match s.anbox with
    | some d => ⟨cache1, [d.id], ad.deleteResult d.id⟩
    | none => ⟨cache1, [], none⟩

/-- Outcome of `LocalSessionManager.ensureMinPoolSize`: the create
requests it issues (each spawned `createNewSession` issues one adapter
`CreateAsync` request) and whether the at-maximum-capacity warning was
logged. -/
structure TopUpOutcome where
  requests : List CreateSessionRequest
  warned : Bool
deriving DecidableEq

/-- The request body built by Go `LocalSessionManager.createNewSession`
(part_003 lines 478-498): only `App`, `Joinable` and `Screen` are set,
the remaining fields keep their Go zero values. -/
def createNewSessionRequest (cfg : Config) : CreateSessionRequest :=
  { app := cfg.gameName
    appVersion := 0
    ephemeral := false
    extraData := ""
    idleTimeMin := 0
    joinable := true
    screen :=
      { width := cfg.screenConfig.width
        height := cfg.screenConfig.height
        density := cfg.screenConfig.density
        fps := cfg.screenConfig.fps } }

/-- Go `LocalSessionManager.ensureMinPoolSize` (part_003 lines
454-475): if `len(cache) >= cfg.Min` do nothing; else if
`len(cache) >= cfg.Max` log a warning and do nothing; else spawn one
`createNewSession`, which issues one `CreateAsync` request. -/
def ensureMinPoolSize (cfg : Config) (cache : List Session) : TopUpOutcome :=
  let currentTotal : Int := cache.length
  if currentTotal ≥ cfg.min then ⟨[], false⟩
  else if currentTotal ≥ cfg.max then ⟨[], true⟩
  else ⟨[createNewSessionRequest cfg], false⟩

/-- Expiry condition of Go `LocalSessionManager.cleanupExpired`
(part_003 lines 395-408): `shouldDelete` is set when
`now.After(session.CreatedAt.Add(cfg.SessionTTL))`, or when the status
is `InUse` or `Warmed` and `now.Sub(session.LastHeartbeat)` exceeds
`cfg.HeartbeatTimeout`. -/
def isExpired (cfg : Config) (now : Int) (s : Session) : Bool :=
  (now > s.createdAt + cfg.sessionTTL)
  || ((s.status == SessionStatus.inUse || s.status == SessionStatus.warmed)
      && (now - s.lastHeartbeat > cfg.heartbeatTimeout))

/-- Outcome of `LocalSessionManager.cleanupExpired`: the surviving
table and the remote ids whose deletion the spawned background tasks
perform (one task per removed entry; a task only calls adapter `Delete`
when the entry has an Anbox link). -/
structure SweepOutcome where
  cache : List Session
  deletes : List String
deriving DecidableEq

/-- Go `LocalSessionManager.cleanupExpired` (part_003 lines 388-424):
every entry satisfying `isExpired` is deleted from the map and, when it
has an Anbox link, a detached task deletes its remote id. -/
def cleanupExpired (cfg : Config) (now : Int) (cache : List Session) : SweepOutcome :=
  ⟨cache.filter (fun s => !(isExpired cfg now s)),
   (cache.filter (fun s => isExpired cfg now s)).filterMap (fun s => s.anbox.map (fun d => d.id))⟩

/-- Go map insert `runningSessionMap[d.ID] = d`, in the
association-list model of the map: overwrite any binding with that id. -/
def insertDetail (acc : List SessionDetails) (d : SessionDetails) : List SessionDetails :=
  acc.filter (fun e => !(e.id == d.id)) ++ [d]

/-- The `runningSessionMap` built by `syncRunningSession` from the
`GetAllRunningSession` result (part_003 lines 350-353). -/
def buildRunningMap (details : List SessionDetails) : List SessionDetails :=
  details.foldl insertDetail []

/-- The new local session that `syncRunningSession` inserts for a
remote session it does not know yet (part_003 lines 359-371). -/
def mkRemoteSession (cfg : Config) (ad : AdapterModel) (now : Int) (d : SessionDetails) : Session :=
  { id := d.id
    game := cfg.gameName
    gatewayURL := ad.gatewayURL
    authToken := ad.authToken
    status := SessionStatus.cold
    anbox := some d
    expiresAt := now + cfg.sessionTTL
    lastHeartbeat := now
    createdAt := now }

/-- Outcome of `LocalSessionManager.syncRunningSession`: the new table,
the adapter delete calls it issues (the Go body contains none), and the
returned Go error. -/
structure SyncOutcome where
  cache : List Session
  deletes : List String
  err : Option String
deriving DecidableEq

/-- Go `LocalSessionManager.syncRunningSession` (part_003 lines
340-384): fetch the remote list (on error return it, table untouched);
insert a new `Cold` session for every remote id absent from the table;
remove every table entry whose id the remote list does not contain.
Neither pass calls adapter `Delete`. -/
def syncRunningSession (ad : AdapterModel) (cfg : Config) (now : Int) (cache : List Session) : SyncOutcome :=
  match ad.listResult with
  | Except.error e => ⟨cache, [], some ("failed to get running sessions: " ++ e)⟩
  | Except.ok details =>
    let runningMap := buildRunningMap details
    let withNew := cache ++
      (runningMap.filter (fun d => !(cache.any (fun s => s.id == d.id)))).map (mkRemoteSession cfg ad now)
    ⟨withNew.filter (fun s => runningMap.any (fun d => d.id == s.id)), [], none⟩

/-- Outcome of a table-mutating operation: the new table and the
returned Go error. -/
structure OpOutcome where
  cache : List Session
  err : Option String
deriving DecidableEq

/-- Wire text of each status constant (Go `session.SessionStatus`
string values). -/
def statusText : SessionStatus → String
  | SessionStatus.cold => "cold"
  | SessionStatus.warming => "warming"
  | SessionStatus.warmed => "warmed"
  | SessionStatus.inUse => "in_use"

/-- Go `LocalSessionManager.SetWarmed` (part_003 lines 186-205): fail
with not-found when the id is absent; fail with a wrong-state error
unless the status is `Warming`; otherwise set the status to `Warmed`
and refresh the heartbeat.  The Go code mutates the single map entry in
place; the list model rewrites the entry with that id. -/
def SetWarmed (now : Int) (cache : List Session) (id : String) : OpOutcome :=
  match findSession cache id with
  | none => ⟨cache, some ("session " ++ id ++ " not found")⟩
  | some s =>
    if s.status == SessionStatus.warming then
      ⟨cache.map (fun t =>
        if t.id == id then { t with status := SessionStatus.warmed, lastHeartbeat := now } else t),
       none⟩
    else
      ⟨cache, some ("session " ++ id ++ " is not in warming status, current status: "
                    ++ statusText s.status)⟩

/-- The comparison closure passed to `sort.Slice` by Go
`LocalSessionManager.ListSessions` (part_003 lines 271-297), written as
the same chain of status tests. -/
def sessLess (a b : Session) : Bool :=
  if a.status == SessionStatus.cold then true
  else if b.status == SessionStatus.cold then false
  else if a.status == SessionStatus.warming then true
  else if b.status == SessionStatus.warming then false
  else if a.status == SessionStatus.warmed then true
  else if b.status == SessionStatus.warmed then false
  else if a.status == SessionStatus.inUse then true
  else if b.status == SessionStatus.inUse then false
  else false

/-- The `sessLess` comparator as a binary relation. -/
def sessLessRel (a b : Session) : Prop :=
  sessLess a b = true

instance : DecidableRel sessLessRel :=
  fun a b => instDecidableEqBool (sessLess a b) true

/-- Go `LocalSessionManager.ListSessions` (part_003 lines 262-300):
snapshot the table and sort it with `sessLess`.  Go `sort.Slice` is an
unstable comparison sort whose output is unspecified for a comparator
that is not a strict weak order (`sessLess` is not one); the model
fixes a deterministic comparison sort (insertion sort) over the
snapshot. -/
def ListSessions (cache : List Session) : List Session :=
  List.insertionSort sessLessRel cache

/-- Outcome of one `backgroundSync` ticker iteration. -/
structure TickOutcome where
  cache : List Session
  deletes : List String
  requests : List CreateSessionRequest
  warned : Bool
deriving DecidableEq

/-- One ticker iteration of Go `LocalSessionManager.backgroundSync`
(part_003 lines 436-448): run `syncRunningSession` (an error is only
logged — the following steps still run), then `cleanupExpired`, then
`ensureMinPoolSize`. -/
def reconcilerTick (ad : AdapterModel) (cfg : Config) (now : Int) (cache : List Session) : TickOutcome :=
  let s1 := syncRunningSession ad cfg now cache
  let s2 := cleanupExpired cfg now s1.cache
  let t := ensureMinPoolSize cfg s2.cache
  ⟨s2.cache, s1.deletes ++ s2.deletes, t.requests, t.warned⟩

/-- Observable state of the `LocalSessionManager` lifecycle fields
(part_003 lines 95-111): the `started` flag and whether `syncStopCh`
has been closed.  `NewLocalSessionManager` creates the channel once;
nothing ever recreates it. -/
structure LMState where
  started : Bool
  stopChClosed : Bool
deriving DecidableEq

/-- State of a freshly constructed `LocalSessionManager`. -/
def newLMState : LMState :=
  ⟨false, false⟩

/-- Result of a lifecycle call: a nil error, an error, or a Go runtime
panic (closing an already closed channel panics). -/
inductive LMRes where
  | ok
  | err (msg : String)
  | panicked (msg : String)
deriving DecidableEq

/-- Go `LocalSessionManager.Start` (part_003 lines 123-150): error if
already started, otherwise set `started` and spawn the background
tasks.  The stop channel is not touched. -/
def lmStart (st : LMState) : LMState × LMRes :=
  if st.started then (st, LMRes.err "session manager already started")
  else ({ st with started := true }, LMRes.ok)

/-- Go `LocalSessionManager.Stop` (part_003 lines 153-165): return nil
if not started; otherwise clear `started` and `close(m.syncStopCh)` —
which panics when the channel is already closed. -/
def lmStop (st : LMState) : LMState × LMRes :=
  if !st.started then (st, LMRes.ok)
  else if st.stopChClosed then
    ({ st with started := false }, LMRes.panicked "close of closed channel")
  else ({ st with started := false, stopChClosed := true }, LMRes.ok)

/-- Go `game.GameInstance` (instance.go): its flags plus the lifecycle
state of its session manager. -/
structure GInst where
  name : String
  initialized : Bool
  running : Bool
  sm : LMState
deriving DecidableEq

/-- Go `GameInstance.Start` (instance.go lines 69-84): error when not
initialized or already running; otherwise call `sessionManager.Start`,
propagate its error, and set `running` on success.  `lmStart` never
panics, so the panic branch is unreachable. -/
def instStart (g : GInst) : GInst × Option String :=
  if !g.initialized then (g, some ("game instance " ++ g.name ++ " not initialized"))
  else if g.running then (g, some ("game instance " ++ g.name ++ " already running"))
  else
    match lmStart g.sm with
    | (sm1, LMRes.ok) => ({ g with sm := sm1, running := true }, none)
    | (sm1, LMRes.err e) =>
      ({ g with sm := sm1 }, some ("failed to start session manager for game " ++ g.name ++ ": " ++ e))
    | (sm1, LMRes.panicked _) => ({ g with sm := sm1 }, some "unreachable")

/-- Go `GameInstance.Stop` (instance.go lines 87-98): nil when not
running; otherwise call `sessionManager.Stop`; on error return it with
`running` left set; on success clear `running`.  A panic from the stop
call unwinds before `running` is cleared. -/
def instStop (g : GInst) : GInst × LMRes :=
  if !g.running then (g, LMRes.ok)
  else
    match lmStop g.sm with
    | (sm1, LMRes.ok) => ({ g with sm := sm1, running := false }, LMRes.ok)
    | (sm1, LMRes.err e) =>
      ({ g with sm := sm1 },
       LMRes.err ("failed to stop session manager for game " ++ g.name ++ ": " ++ e))
    | (sm1, LMRes.panicked m) => ({ g with sm := sm1 }, LMRes.panicked m)

/-- The start loop of Go `game.Manager.Start` (manager.go lines 66-72):
start the instances one by one; on the first failure stop the loop and
return the wrapped error.  Go iterates the instance map in unspecified
order; the model iterates the list in order. -/
def startAll : List GInst → List GInst × Option String
  | [] => ([], none)
  | g :: rest =>
    match instStart g with
    | (g1, some e) => (g1 :: rest, some ("failed to start game instance " ++ g.name ++ ": " ++ e))
    | (g1, none) =>
      let p := startAll rest
      (g1 :: p.1, p.2)

/-- Go `game.Manager.stopAllInstances` (manager.go lines 93-101): stop
every instance, logging and ignoring per-instance errors.  A panic from
an `instStop` call aborts the loop and propagates (second component
true). -/
def stopAllInstances : List GInst → List GInst × Bool
  | [] => ([], false)
  | g :: rest =>
    match instStop g with
    | (g1, LMRes.panicked _) => (g1 :: rest, true)
    | (g1, _) =>
      let p := stopAllInstances rest
      (g1 :: p.1, p.2)

/-- Go `game.Manager` fields relevant to start/stop (manager.go). -/
structure FleetState where
  instances : List GInst
  initialized : Bool
  running : Bool
deriving DecidableEq

/-- Outcome of `game.Manager.Start`: the new manager state, the
returned error, whether `stopAllInstances` ran, and whether a panic
propagated out of it. -/
structure StartOutcome where
  fleet : FleetState
  err : Option String
  stopRan : Bool
  panicked : Bool
deriving DecidableEq

/-- Go `game.Manager.Start` (manager.go lines 53-76): error when not
initialized or already running; start every instance; on the first
failure run `stopAllInstances` and return the error with `running`
still false; when every instance starts, set `running`. -/
def managerStart (m : FleetState) : StartOutcome :=
  if !m.initialized then ⟨m, some "game manager not initialized", false, false⟩
  else if m.running then ⟨m, some "game manager already running", false, false⟩
  else
    match startAll m.instances with
    | (insts1, some e) =>
      let p := stopAllInstances insts1
      ⟨{ m with instances := p.1 }, some e, true, p.2⟩
    | (insts1, none) => ⟨{ m with instances := insts1, running := true }, none, false, false⟩

/-- Events of the pool lock discipline, in program order of the calling
task: acquiring and releasing `m.mu`, a synchronous adapter `Delete`
performed by the calling task, and the launch (`go func`) of a detached
task that will perform an adapter `Delete`. -/
inductive PoolEvent where
  | lockAcquire
  | lockRelease
  | adapterDelete (remoteId : String)
  | spawnDelete (remoteId : String)
deriving DecidableEq

/-- Event trace of Go `LocalSessionManager.Release` (part_003 lines
227-246): `m.mu.Lock()` runs first, the unlock is deferred, and when
the session has an Anbox link the adapter `Delete` call is evaluated in
the `return` statement — before the deferred unlock runs. -/
def ReleaseTrace (cache : List Session) (id : String) : List PoolEvent :=
  match findSession cache id with
  | none => [PoolEvent.lockAcquire, PoolEvent.lockRelease]
  | some s =>
    match s.anbox with
    | some d => [PoolEvent.lockAcquire, PoolEvent.adapterDelete d.id, PoolEvent.lockRelease]
    | none => [PoolEvent.lockAcquire, PoolEvent.lockRelease]

/-- Event trace of Go `LocalSessionManager.cleanupExpired` (part_003
lines 388-424): the lock is taken first, the unlock is deferred, and
inside the loop a detached delete task is launched for each removed
entry — before the deferred unlock runs.  Launches for entries without
an Anbox link perform no adapter call and are omitted. -/
def cleanupExpiredTrace (cfg : Config) (now : Int) (cache : List Session) : List PoolEvent :=
  [PoolEvent.lockAcquire]
  ++ ((cache.filter (fun s => isExpired cfg now s)).filterMap
       (fun s => s.anbox.map (fun d => PoolEvent.spawnDelete d.id)))
  ++ [PoolEvent.lockRelease]

/-- Scan a trace keeping the lock depth; true when a synchronous
adapter `Delete` occurs while the lock is held. -/
def deleteWhileLockedAux : Nat → List PoolEvent → Bool
  | _, [] => false
  | depth, PoolEvent.lockAcquire :: rest => deleteWhileLockedAux (depth + 1) rest
  | depth, PoolEvent.lockRelease :: rest => deleteWhileLockedAux (depth - 1) rest
  | depth, PoolEvent.adapterDelete _ :: rest =>
    decide (0 < depth) || deleteWhileLockedAux depth rest
  | depth, PoolEvent.spawnDelete _ :: rest => deleteWhileLockedAux depth rest

/-- True when the trace performs a synchronous adapter `Delete` while
holding the pool lock. -/
def deleteWhileLocked (tr : List PoolEvent) : Bool :=
  deleteWhileLockedAux 0 tr

/-- Scan a trace keeping the lock depth; true when a detached delete
task is launched while the lock is held. -/
def spawnWhileLockedAux : Nat → List PoolEvent → Bool
  | _, [] => false
  | depth, PoolEvent.lockAcquire :: rest => spawnWhileLockedAux (depth + 1) rest
  | depth, PoolEvent.lockRelease :: rest => spawnWhileLockedAux (depth - 1) rest
  | depth, PoolEvent.adapterDelete _ :: rest => spawnWhileLockedAux depth rest
  | depth, PoolEvent.spawnDelete _ :: rest =>
    decide (0 < depth) || spawnWhileLockedAux depth rest

/-- True when the trace launches a detached delete task while holding
the pool lock. -/
def spawnWhileLocked (tr : List PoolEvent) : Bool :=
  spawnWhileLockedAux 0 tr

/-- Canonical rank of the status order `Cold < Warming < Warmed <
InUse` used by the specification of the listing order. -/
def statusRank : SessionStatus → Nat
  | SessionStatus.cold => 0
  | SessionStatus.warming => 1
  | SessionStatus.warmed => 2
  | SessionStatus.inUse => 3

/-- Removal condition of the expiry sweep as the claim states it:
strictly older than `session_ttl` regardless of status, or status
`Warmed` or `InUse` with a heartbeat strictly staler than
`heartbeat_timeout`. -/
def specExpiryRemove (cfg : Config) (now : Int) (s : Session) : Bool :=
  (now - s.createdAt > cfg.sessionTTL)
  || ((s.status == SessionStatus.warmed || s.status == SessionStatus.inUse)
      && (now - s.lastHeartbeat > cfg.heartbeatTimeout))

/-- Concrete screen configuration used by the witnesses. -/
def exScreen : ScreenConfig :=
  ⟨720, 1240, 320, 30⟩

/-- Concrete pool configuration used by the witnesses: min 5, max 10,
session TTL 300, heartbeat timeout 300, sync interval 30. -/
def exCfg : Config :=
  ⟨"idle_weapon", 5, 10, 300, 300, 30, exScreen⟩

/-- Concrete remote record with remote id r1. -/
def exDetail : SessionDetails :=
  ⟨"r1", "", "", [], "running", true⟩

/-- Concrete session s1 holding a remote link to r1. -/
def exSessionRemote : Session :=
  ⟨"s1", "idle_weapon", SessionStatus.inUse, some exDetail, "gw", "tok", 400, 100, 100⟩

/-- Concrete cold session s2 without a remote link. -/
def exSessionLocal : Session :=
  ⟨"s2", "idle_weapon", SessionStatus.cold, none, "gw", "tok", 400, 100, 100⟩

/-- Concrete expired session: created at 0 with TTL 300, observed at
now 1000. -/
def exExpired : Session :=
  ⟨"s3", "idle_weapon", SessionStatus.cold, some exDetail, "tok", "gw", 300, 0, 0⟩

/-- Adapter whose delete calls always fail. -/
def adDeleteFails : AdapterModel :=
  ⟨fun _ => some "adapter delete failed", none, Except.ok [], "gw", "tok"⟩

/-- Adapter whose calls all succeed and whose remote list is empty. -/
def adAllOk : AdapterModel :=
  ⟨fun _ => none, none, Except.ok [], "gw", "tok"⟩

/-- Adapter whose remote listing fails. -/
def adListFails : AdapterModel :=
  ⟨fun _ => none, none, Except.error "gateway unreachable", "gw", "tok"⟩

/-- Claim C1 counterexample: with one session s1 holding remote link r1
and an adapter whose delete fails, `Release` removes the entry but
returns the adapter error — not success as the claim states. -/
theorem Release_returns_delete_error_counterexample :
    (Release adDeleteFails [exSessionRemote] "s1").cache = []
    ∧ (Release adDeleteFails [exSessionRemote] "s1").result = some "adapter delete failed"
    ∧ (Release adDeleteFails [exSessionRemote] "s1").result ≠ none := by
  decide

/-- Claim C1 (amended): for every session present in the table,
`release(id)` removes the entry from the table unconditionally, but the
call returns the result of the adapter delete when the session has a
remote link — an adapter error is returned to the caller, not
swallowed; a session with no remote link triggers no delete call and
the call succeeds. -/
theorem Release_removes_entry_and_returns_delete_result
    (ad : AdapterModel) (cache : List Session) (id : String) (s : Session)
    (h : findSession cache id = some s) :
    (Release ad cache id).cache = removeSession cache id
    ∧ (∀ t ∈ (Release ad cache id).cache, t.id ≠ id)
    ∧ (s.anbox = none → (Release ad cache id).deletes = [] ∧ (Release ad cache id).result = none)
    ∧ (∀ d, s.anbox = some d →
        (Release ad cache id).deletes = [d.id]
        ∧ (Release ad cache id).result = ad.deleteResult d.id) := by
  have hmem : ∀ t ∈ removeSession cache id, t.id ≠ id := by
    intro t ht
    have := List.mem_filter.mp ht
    simpa using this.2
  cases hA : s.anbox with
  | none =>
    have e : Release ad cache id = ⟨removeSession cache id, [], none⟩ := by
      simp [Release, h, hA]
    rw [e]
    refine ⟨rfl, hmem, fun _ => ⟨rfl, rfl⟩, ?_⟩
    intro d hd
    simp at hd
  | some d0 =>
    have e : Release ad cache id = ⟨removeSession cache id, [d0.id], ad.deleteResult d0.id⟩ := by
      simp [Release, h, hA]
    rw [e]
    refine ⟨rfl, hmem, ?_, ?_⟩
    · intro hnone
      simp at hnone
    · intro d hd
      injection hd with h2
      subst h2
      exact ⟨rfl, rfl⟩

/-- Claim C1 witness: the amended rule evaluated at the concrete
failing-adapter input. -/
theorem Release_removes_entry_and_returns_delete_result_witness :
    (Release adDeleteFails [exSessionRemote] "s1").cache = removeSession [exSessionRemote] "s1"
    ∧ (Release adDeleteFails [exSessionRemote] "s1").deletes = ["r1"]
    ∧ (Release adDeleteFails [exSessionRemote] "s1").result = adDeleteFails.deleteResult "r1" := by
  have h := Release_removes_entry_and_returns_delete_result adDeleteFails [exSessionRemote] "s1"
    exSessionRemote (by decide)
  exact ⟨h.1, (h.2.2.2 exDetail rfl).1, (h.2.2.2 exDetail rfl).2⟩

/-- Ten distinct sessions, a full pool for the example configuration
(min 5, max 10). -/
def exCache10 : List Session :=
  [{ exSessionLocal with id := "p0" }, { exSessionLocal with id := "p1" },
   { exSessionLocal with id := "p2" }, { exSessionLocal with id := "p3" },
   { exSessionLocal with id := "p4" }, { exSessionLocal with id := "p5" },
   { exSessionLocal with id := "p6" }, { exSessionLocal with id := "p7" },
   { exSessionLocal with id := "p8" }, { exSessionLocal with id := "p9" }]

/-- Claim C2 counterexample: with min 5, max 10 and a pool of 10, the
total has reached the maximum and no create request is issued, but no
warning is logged either (the warning branch is reachable only when
total is below min), contradicting the claim that a warning is logged
whenever total is at least max. -/
theorem ensureMinPoolSize_no_warning_counterexample :
    exCfg.max ≤ (exCache10.length : Int)
    ∧ (ensureMinPoolSize exCfg exCache10).requests = []
    ∧ (ensureMinPoolSize exCfg exCache10).warned = false := by
  decide

/-- Upper bound on the create requests a single top-up step issues. -/
theorem ensureMinPoolSize_requests_le_one (cfg : Config) (cache : List Session) :
    (ensureMinPoolSize cfg cache).requests.length ≤ 1 := by
  dsimp only [ensureMinPoolSize]
  split_ifs <;> simp

/-- Claim C2 (amended): the top-up step issues exactly one
`create_async` request if and only if total is below min and below max;
it never issues more than one per tick; the at-maximum warning is
logged exactly when total is below min but at least max (which requires
max below min) — with total at max and min not above max, the step
returns silently without warning. -/
theorem ensureMinPoolSize_topup_rule (cfg : Config) (cache : List Session) :
    ((ensureMinPoolSize cfg cache).requests.length = 1 ↔
      ((cache.length : Int) < cfg.min ∧ (cache.length : Int) < cfg.max))
    ∧ ((ensureMinPoolSize cfg cache).warned = true ↔
      ((cache.length : Int) < cfg.min ∧ cfg.max ≤ (cache.length : Int)))
    ∧ (∀ ad now cache2, (reconcilerTick ad cfg now cache2).requests.length ≤ 1) := by
  refine ⟨?_, ?_, ?_⟩
  · dsimp only [ensureMinPoolSize]
    split_ifs with h1 h2 <;> simp <;> omega
  · dsimp only [ensureMinPoolSize]
    split_ifs with h1 h2 <;> simp <;> omega
  · intro ad now cache2
    have h := ensureMinPoolSize_requests_le_one cfg
      (cleanupExpired cfg now (syncRunningSession ad cfg now cache2).cache).cache
    exact h

/-- The expiry test of the Go code coincides with the removal condition
stated by the specification. -/
theorem isExpired_eq_specExpiryRemove (cfg : Config) (now : Int) (s : Session) :
    isExpired cfg now s = specExpiryRemove cfg now s := by
  unfold isExpired specExpiryRemove
  rw [Bool.or_comm (s.status == SessionStatus.inUse) (s.status == SessionStatus.warmed)]
  congr 1
  exact decide_eq_decide.mpr (by omega)

/-- Cold session with a stale heartbeat (0) but a fresh creation time
(900): at now 1000 the heartbeat is 1000 stale but the age is only
100. -/
def exStaleCold : Session :=
  ⟨"s4", "idle_weapon", SessionStatus.cold, none, "gw", "tok", 1200, 0, 900⟩

/-- Claim C3: the expiry sweep keeps exactly the entries that are not
past the session TTL (strictly, regardless of status) and not — being
`Warmed` or `InUse` — past the heartbeat timeout (strictly); the
detached deletes it fires are exactly the remote ids of the removed
entries that carry a remote link; and a `Cold` or `Warming` entry whose
creation time is within the TTL survives however stale its heartbeat
is. -/
theorem cleanupExpired_removal_rule (cfg : Config) (now : Int) (cache : List Session) :
    (cleanupExpired cfg now cache).cache =
      cache.filter (fun s => !(specExpiryRemove cfg now s))
    ∧ (cleanupExpired cfg now cache).deletes =
      (cache.filter (fun s => specExpiryRemove cfg now s)).filterMap
        (fun s => s.anbox.map (fun d => d.id))
    ∧ (∀ s ∈ cache, (s.status = SessionStatus.cold ∨ s.status = SessionStatus.warming) →
        now - s.createdAt ≤ cfg.sessionTTL → s ∈ (cleanupExpired cfg now cache).cache) := by
  have hf : ∀ s, isExpired cfg now s = specExpiryRemove cfg now s :=
    fun s => isExpired_eq_specExpiryRemove cfg now s
  refine ⟨?_, ?_, ?_⟩
  · unfold cleanupExpired
    simp only [hf]
  · unfold cleanupExpired
    simp only [hf]
  · intro s hs hstatus hage
    unfold cleanupExpired
    simp only [List.mem_filter]
    refine ⟨hs, ?_⟩
    rw [hf]
    unfold specExpiryRemove
    rcases hstatus with h | h <;> simp [h] <;> omega

/-- Claim C3 witness: the sweep rule evaluated on a concrete table —
the stale-heartbeat cold session survives. -/
theorem cleanupExpired_removal_rule_witness :
    exStaleCold ∈ (cleanupExpired exCfg 1000 [exStaleCold, exExpired]).cache := by
  exact (cleanupExpired_removal_rule exCfg 1000 [exStaleCold, exExpired]).2.2 exStaleCold
    (by decide) (by decide) (by decide)

/-- Remote ids of a list of remote records. -/
def detailIds (l : List SessionDetails) : List String :=
  l.map (fun d => d.id)

/-- Inserting into the running map adds exactly the inserted id. -/
theorem mem_detailIds_insertDetail (acc : List SessionDetails) (d : SessionDetails) (x : String) :
    x ∈ detailIds (insertDetail acc d) ↔ x ∈ detailIds acc ∨ x = d.id := by
  unfold insertDetail detailIds
  simp only [List.map_append, List.map_cons, List.map_nil, List.mem_append, List.mem_singleton,
    List.mem_map, List.mem_filter]
  constructor
  · rintro (⟨e, ⟨he, _⟩, hx⟩ | hx)
    · exact Or.inl ⟨e, he, hx⟩
    · exact Or.inr hx
  · rintro (⟨e, he, hx⟩ | hx)
    · by_cases hed : e.id = d.id
      · exact Or.inr (hx ▸ hed)
      · exact Or.inl ⟨e, ⟨he, by simpa using hed⟩, hx⟩
    · exact Or.inr hx

/-- The ids present after folding the insertions are the accumulated
ids plus the inserted ids. -/
theorem mem_detailIds_foldl (l : List SessionDetails) (acc : List SessionDetails) (x : String) :
    x ∈ detailIds (l.foldl insertDetail acc) ↔ x ∈ detailIds acc ∨ x ∈ detailIds l := by
  induction l generalizing acc with
  | nil => simp [detailIds]
  | cons d rest ih =>
    rw [List.foldl_cons, ih, mem_detailIds_insertDetail]
    have : x ∈ detailIds (d :: rest) ↔ x = d.id ∨ x ∈ detailIds rest := by
      unfold detailIds
      simp
    rw [this]
    tauto

/-- The running map holds exactly the ids of the fetched remote
list. -/
theorem mem_detailIds_buildRunningMap (details : List SessionDetails) (x : String) :
    x ∈ detailIds (buildRunningMap details) ↔ x ∈ detailIds details := by
  unfold buildRunningMap
  rw [mem_detailIds_foldl]
  simp [detailIds]

/-- Claim C4: when the remote listing succeeds with list R, the reshape
step issues no adapter delete and reports no error; every cached entry
whose id R does not contain is gone from the resulting table — whatever
its status — and every cached entry whose id R contains is still
present unchanged. -/
theorem syncRunningSession_removal_pass
    (ad : AdapterModel) (cfg : Config) (now : Int) (cache : List Session)
    (details : List SessionDetails) (h : ad.listResult = Except.ok details) :
    (syncRunningSession ad cfg now cache).deletes = []
    ∧ (syncRunningSession ad cfg now cache).err = none
    ∧ (∀ s ∈ cache, (∀ d ∈ details, d.id ≠ s.id) →
        s ∉ (syncRunningSession ad cfg now cache).cache)
    ∧ (∀ s ∈ cache, (∃ d ∈ details, d.id = s.id) →
        s ∈ (syncRunningSession ad cfg now cache).cache) := by
  unfold syncRunningSession
  rw [h]
  refine ⟨rfl, rfl, ?_, ?_⟩
  · intro s _ hnot hmem
    have hp := (List.mem_filter.mp hmem).2
    rw [List.any_eq_true] at hp
    obtain ⟨d, hd, hdx⟩ := hp
    have hid : d.id = s.id := by simpa using hdx
    have : s.id ∈ detailIds (buildRunningMap details) := by
      unfold detailIds
      exact List.mem_map.mpr ⟨d, hd, hid⟩
    rw [mem_detailIds_buildRunningMap] at this
    obtain ⟨d2, hd2, hdx2⟩ := List.mem_map.mp this
    exact hnot d2 hd2 hdx2
  · intro s hs hex
    obtain ⟨d, hd, hid⟩ := hex
    rw [List.mem_filter]
    constructor
    · exact List.mem_append.mpr (Or.inl hs)
    · rw [List.any_eq_true]
      have : s.id ∈ detailIds (buildRunningMap details) := by
        rw [mem_detailIds_buildRunningMap]
        unfold detailIds
        exact List.mem_map.mpr ⟨d, hd, hid⟩
      obtain ⟨d2, hd2, hdx2⟩ := List.mem_map.mp this
      exact ⟨d2, hd2, by simpa using hdx2⟩

/-- Remote record whose id matches the local session s1. -/
def exDetailS1 : SessionDetails :=
  ⟨"s1", "", "", [], "running", true⟩

/-- Adapter whose remote listing returns exactly the record for s1. -/
def adListS1 : AdapterModel :=
  ⟨fun _ => none, none, Except.ok [exDetailS1], "gw", "tok"⟩

/-- Claim C4 witness: the reshape rule on a concrete table holding s1
(present remotely) and s2 (gone remotely). -/
theorem syncRunningSession_removal_pass_witness :
    (syncRunningSession adListS1 exCfg 1000 [exSessionRemote, exSessionLocal]).deletes = []
    ∧ exSessionLocal ∉ (syncRunningSession adListS1 exCfg 1000 [exSessionRemote, exSessionLocal]).cache
    ∧ exSessionRemote ∈ (syncRunningSession adListS1 exCfg 1000 [exSessionRemote, exSessionLocal]).cache := by
  have h := syncRunningSession_removal_pass adListS1 exCfg 1000 [exSessionRemote, exSessionLocal]
    [exDetailS1] rfl
  exact ⟨h.1, h.2.2.1 exSessionLocal (by decide) (by decide),
    h.2.2.2 exSessionRemote (by decide) ⟨exDetailS1, by decide, by decide⟩⟩

/-- Claim C5: `set_warmed(id)` succeeds exactly when an entry with that
id exists in `Warming` status; on success that entry becomes `Warmed`
with a refreshed heartbeat while every other entry is untouched; with
an entry in any other status it fails with the wrong-state error and
the table is unchanged; with no entry it fails with the not-found error
and the table is unchanged. -/
theorem SetWarmed_state_machine (now : Int) (cache : List Session) (id : String) :
    ((SetWarmed now cache id).err = none ↔
      ∃ s, findSession cache id = some s ∧ s.status = SessionStatus.warming)
    ∧ (findSession cache id = none →
        (SetWarmed now cache id).cache = cache
        ∧ (SetWarmed now cache id).err = some ("session " ++ id ++ " not found"))
    ∧ (∀ s, findSession cache id = some s → s.status ≠ SessionStatus.warming →
        (SetWarmed now cache id).cache = cache
        ∧ (SetWarmed now cache id).err =
          some ("session " ++ id ++ " is not in warming status, current status: "
                ++ statusText s.status))
    ∧ (∀ s, findSession cache id = some s → s.status = SessionStatus.warming →
        ∀ t ∈ cache,
          (t.id ≠ id → t ∈ (SetWarmed now cache id).cache)
          ∧ (t.id = id →
              { t with status := SessionStatus.warmed, lastHeartbeat := now }
                ∈ (SetWarmed now cache id).cache)) := by
  cases hf : findSession cache id with
  | none =>
    have e : SetWarmed now cache id = ⟨cache, some ("session " ++ id ++ " not found")⟩ := by
      simp [SetWarmed, hf]
    rw [e]
    refine ⟨?_, fun _ => ⟨rfl, rfl⟩, ?_, ?_⟩
    · refine iff_of_false (by simp) ?_
      rintro ⟨s, hs, _⟩
      exact Option.noConfusion hs
    · intro s hs
      exact Option.noConfusion hs
    · intro s hs
      exact Option.noConfusion hs
  | some s0 =>
    by_cases hw : s0.status = SessionStatus.warming
    · have e : SetWarmed now cache id =
        ⟨cache.map (fun t =>
          if t.id == id then { t with status := SessionStatus.warmed, lastHeartbeat := now }
          else t), none⟩ := by
        simp [SetWarmed, hf, hw]
      rw [e]
      refine ⟨?_, ?_, ?_, ?_⟩
      · exact iff_of_true rfl ⟨s0, rfl, hw⟩
      · intro hnone
        exact Option.noConfusion hnone
      · intro s hs hne
        injection hs with hs
        subst hs
        exact absurd hw hne
      · intro s hs _ t ht
        constructor
        · intro hne
          have hfix : (fun t : Session =>
              if t.id == id then { t with status := SessionStatus.warmed, lastHeartbeat := now }
              else t) t = t := by
            simp [hne]
          exact hfix ▸ List.mem_map_of_mem _ ht
        · intro heq
          have hfix : (fun t : Session =>
              if t.id == id then { t with status := SessionStatus.warmed, lastHeartbeat := now }
              else t) t = { t with status := SessionStatus.warmed, lastHeartbeat := now } := by
            simp [heq]
          exact hfix ▸ List.mem_map_of_mem _ ht
    · have e : SetWarmed now cache id =
        ⟨cache, some ("session " ++ id ++ " is not in warming status, current status: "
                      ++ statusText s0.status)⟩ := by
        simp [SetWarmed, hf, hw]
      rw [e]
      refine ⟨?_, ?_, ?_, ?_⟩
      · refine iff_of_false (by simp) ?_
        rintro ⟨s, hs, hsw⟩
        injection hs with hs
        subst hs
        exact hw hsw
      · intro hnone
        exact Option.noConfusion hnone
      · intro s hs _
        injection hs with hs
        subst hs
        exact ⟨rfl, rfl⟩
      · intro s hs hsw
        injection hs with hs
        subst hs
        exact absurd hsw hw

/-- Claim C5 witness: `set_warmed` on the concrete cold entry s2 fails
with the wrong-state error and leaves the table unchanged. -/
theorem SetWarmed_state_machine_witness :
    (SetWarmed 50 [exSessionLocal] "s2").cache = [exSessionLocal]
    ∧ (SetWarmed 50 [exSessionLocal] "s2").err =
      some ("session " ++ "s2" ++ " is not in warming status, current status: "
            ++ statusText exSessionLocal.status) := by
  exact (SetWarmed_state_machine 50 [exSessionLocal] "s2").2.2.1 exSessionLocal (by decide)
    (by decide)

/-- Claim C6 counterexample: with a failing remote listing and a table
holding one expired entry, the tick still removes the entry — the
expiry sweep is not skipped, contradicting the claim that steps 2 and 3
are both skipped and the table is untouched. -/
theorem tick_sweeps_on_list_failure_counterexample :
    adListFails.listResult = Except.error "gateway unreachable"
    ∧ (reconcilerTick adListFails exCfg 1000 [exExpired]).cache = []
    ∧ (reconcilerTick adListFails exCfg 1000 [exExpired]).deletes = ["r1"] := by
  refine ⟨rfl, ?_, ?_⟩ <;> decide

/-- Claim C6 (amended): when the remote listing fails, the tick skips
only the reshape (the table is untouched by step 2); the expiry sweep
still runs on the unchanged table, as does the top-up step. -/
theorem tick_on_list_failure
    (ad : AdapterModel) (cfg : Config) (now : Int) (cache : List Session) (e : String)
    (h : ad.listResult = Except.error e) :
    (syncRunningSession ad cfg now cache).cache = cache
    ∧ (reconcilerTick ad cfg now cache).cache = (cleanupExpired cfg now cache).cache
    ∧ (reconcilerTick ad cfg now cache).deletes = (cleanupExpired cfg now cache).deletes
    ∧ (reconcilerTick ad cfg now cache).requests =
      (ensureMinPoolSize cfg (cleanupExpired cfg now cache).cache).requests := by
  have hsync : syncRunningSession ad cfg now cache =
      ⟨cache, [], some ("failed to get running sessions: " ++ e)⟩ := by
    simp [syncRunningSession, h]
  refine ⟨by rw [hsync], ?_, ?_, ?_⟩ <;>
    simp [reconcilerTick, hsync]

/-- Claim C6 witness: the amended tick behaviour at the concrete
failing-listing input. -/
theorem tick_on_list_failure_witness :
    (syncRunningSession adListFails exCfg 1000 [exExpired]).cache = [exExpired]
    ∧ (reconcilerTick adListFails exCfg 1000 [exExpired]).cache =
      (cleanupExpired exCfg 1000 [exExpired]).cache
    ∧ (reconcilerTick adListFails exCfg 1000 [exExpired]).deletes =
      (cleanupExpired exCfg 1000 [exExpired]).deletes
    ∧ (reconcilerTick adListFails exCfg 1000 [exExpired]).requests =
      (ensureMinPoolSize exCfg (cleanupExpired exCfg 1000 [exExpired]).cache).requests := by
  exact tick_on_list_failure adListFails exCfg 1000 [exExpired] "gateway unreachable" rfl

/-- The source comparator orders two sessions exactly by the rank of
their statuses — non-strictly, and without ever consulting
`createdAt`. -/
theorem sessLess_iff_rank (a b : Session) :
    sessLess a b = true ↔ statusRank a.status ≤ statusRank b.status := by
  cases ha : a.status <;> cases hb : b.status <;>
    simp [sessLess, statusRank, ha, hb]

instance : IsTotal Session sessLessRel :=
  ⟨fun a b => by
    unfold sessLessRel
    rw [sessLess_iff_rank, sessLess_iff_rank]
    exact Nat.le_total _ _⟩

instance : IsTrans Session sessLessRel :=
  ⟨fun a b c hab hbc => by
    unfold sessLessRel at hab hbc ⊢
    rw [sessLess_iff_rank] at hab hbc ⊢
    omega⟩

/-- The ordering the claim asserts for the listing: canonical status
order, ties broken by creation time. -/
def claimListOrdered (l : List Session) : Prop :=
  l.Pairwise (fun a b =>
    statusRank a.status < statusRank b.status
    ∨ (a.status = b.status ∧ a.createdAt ≤ b.createdAt))

/-- Cold session created late (at 5). -/
def exColdLate : Session :=
  ⟨"c5", "idle_weapon", SessionStatus.cold, none, "gw", "tok", 305, 5, 5⟩

/-- Cold session created early (at 1). -/
def exColdEarly : Session :=
  ⟨"c1", "idle_weapon", SessionStatus.cold, none, "gw", "tok", 301, 1, 1⟩

/-- Claim C7 counterexample: two `Cold` entries arriving in reverse
creation order are returned in that same reverse order — the comparator
never consults `createdAt`, so the output violates the claimed
tie-break. -/
theorem ListSessions_tiebreak_counterexample :
    ListSessions [exColdLate, exColdEarly] = [exColdLate, exColdEarly]
    ∧ ¬ claimListOrdered [exColdLate, exColdEarly] := by
  constructor
  · decide
  · intro h
    unfold claimListOrdered at h
    rw [List.pairwise_cons] at h
    have := h.1 exColdEarly (by simp)
    revert this
    decide

/-- Claim C7 (amended): `list()` returns a permutation of the table
sorted by the canonical status order `Cold < Warming < Warmed < InUse`;
entries of equal status appear in no particular order — `createdAt` is
not consulted. -/
theorem ListSessions_sorted_by_status (cache : List Session) :
    List.Perm (ListSessions cache) cache
    ∧ (ListSessions cache).Pairwise
      (fun a b => statusRank a.status ≤ statusRank b.status) := by
  constructor
  · exact List.perm_insertionSort sessLessRel cache
  · have h := List.sorted_insertionSort sessLessRel cache
    exact List.Pairwise.imp (fun hab => (sessLess_iff_rank _ _).mp hab) h

/-- Starting an instance never touches the stop channel of its session
manager. -/
theorem instStart_chClosed (g : GInst) :
    ((instStart g).1).sm.stopChClosed = g.sm.stopChClosed := by
  unfold instStart lmStart
  split_ifs <;> simp

/-- A successful instance start leaves the instance running. -/
theorem instStart_none_running (g : GInst) (h : (instStart g).2 = none) :
    ((instStart g).1).running = true := by
  unfold instStart lmStart at h ⊢
  split_ifs at h ⊢
  all_goals simp_all

/-- The start loop preserves unclosed stop channels. -/
theorem startAll_preserves_chClosed (l : List GInst)
    (h : ∀ g ∈ l, g.sm.stopChClosed = false) :
    ∀ g ∈ (startAll l).1, g.sm.stopChClosed = false := by
  induction l with
  | nil => simp [startAll]
  | cons g rest ih =>
    have hg := h g (List.mem_cons_self g rest)
    have hrest : ∀ t ∈ rest, t.sm.stopChClosed = false :=
      fun t ht => h t (List.mem_cons_of_mem g ht)
    have hg1 : ((instStart g).1).sm.stopChClosed = false := by
      rw [instStart_chClosed]
      exact hg
    intro t ht
    unfold startAll at ht
    cases hi : instStart g with
    | mk g1 r =>
      rw [hi] at ht hg1
      cases r with
      | some e =>
        simp at ht
        rcases ht with rfl | ht
        · exact hg1
        · exact hrest t ht
      | none =>
        simp at ht
        rcases ht with rfl | ht
        · exact hg1
        · exact ih hrest t ht

/-- When the start loop reports no error, every instance in its result
is running. -/
theorem startAll_none_running (l : List GInst) (h : (startAll l).2 = none) :
    ∀ g ∈ (startAll l).1, g.running = true := by
  induction l with
  | nil => simp [startAll]
  | cons g rest ih =>
    unfold startAll at h ⊢
    cases hi : instStart g with
    | mk g1 r =>
      rw [hi] at h
      cases r with
      | some e => simp at h
      | none =>
        have hg1 : g1.running = true := by
          have := instStart_none_running g (by rw [hi])
          rw [hi] at this
          exact this
        intro t ht
        simp at ht
        rcases ht with rfl | ht
        · exact hg1
        · exact ih (by simpa using h) t ht

/-- Stopping an instance whose stop channel has not been closed never
panics and leaves the instance not running. -/
theorem instStop_fresh (g : GInst) (h : g.sm.stopChClosed = false) :
    ((instStop g).1).running = false
    ∧ (∀ m, (instStop g).2 ≠ LMRes.panicked m) := by
  unfold instStop lmStop
  split_ifs <;> simp_all

/-- Stopping a list of instances with unclosed stop channels never
panics and leaves every instance not running. -/
theorem stopAll_fresh (l : List GInst)
    (h : ∀ g ∈ l, g.sm.stopChClosed = false) :
    (stopAllInstances l).2 = false
    ∧ ∀ g ∈ (stopAllInstances l).1, g.running = false := by
  induction l with
  | nil => simp [stopAllInstances]
  | cons g rest ih =>
    have hg := h g (List.mem_cons_self g rest)
    have hrest : ∀ t ∈ rest, t.sm.stopChClosed = false :=
      fun t ht => h t (List.mem_cons_of_mem g ht)
    have hstop := instStop_fresh g hg
    have ihr := ih hrest
    unfold stopAllInstances
    cases hi : instStop g with
    | mk g1 r =>
      rw [hi] at hstop
      cases r with
      | panicked m => exact absurd rfl (hstop.2 m)
      | ok =>
        refine ⟨by simpa using ihr.1, ?_⟩
        intro t ht
        simp at ht
        rcases ht with rfl | ht
        · exact hstop.1
        · exact ihr.2 t ht
      | err e =>
        refine ⟨by simpa using ihr.1, ?_⟩
        intro t ht
        simp at ht
        rcases ht with rfl | ht
        · exact hstop.1
        · exact ihr.2 t ht

/-- Claim C8: fleet start is all-or-nothing.  For an initialised,
not-yet-running supervisor whose instances have fresh stop channels: if
every instance starts, `running` becomes true, `stopAllInstances` is
never invoked and every instance ends running; if any instance fails to
start, the error is returned, `running` stays false, no panic escapes,
and every instance — in particular each already-started one — ends not
running. -/
theorem managerStart_all_or_nothing (m : FleetState)
    (hinit : m.initialized = true) (hrun : m.running = false)
    (hfresh : ∀ g ∈ m.instances, g.sm.stopChClosed = false) :
    ((managerStart m).err = none →
      (managerStart m).fleet.running = true
      ∧ (managerStart m).stopRan = false
      ∧ ∀ g ∈ (managerStart m).fleet.instances, g.running = true)
    ∧ ((managerStart m).err ≠ none →
      (managerStart m).fleet.running = false
      ∧ (managerStart m).panicked = false
      ∧ ∀ g ∈ (managerStart m).fleet.instances, g.running = false) := by
  unfold managerStart
  rw [hinit, hrun]
  simp only [Bool.not_true, Bool.false_eq_true, if_false, Bool.not_false, if_true]
  cases hsa : startAll m.instances with
  | mk insts1 r =>
    have hch : ∀ g ∈ insts1, g.sm.stopChClosed = false := by
      intro g hg
      have := startAll_preserves_chClosed m.instances hfresh g (by rw [hsa]; exact hg)
      exact this
    cases r with
    | none =>
      constructor
      · intro _
        refine ⟨rfl, rfl, ?_⟩
        intro g hg
        exact startAll_none_running m.instances (by rw [hsa]) g (by rw [hsa]; exact hg)
      · intro hne
        exact absurd rfl hne
    | some e =>
      constructor
      · intro hnone
        exact Option.noConfusion hnone
      · intro _
        have hall := stopAll_fresh insts1 hch
        exact ⟨rfl, hall.1, hall.2⟩

/-- Initialised instance with a fresh session manager. -/
def exInstOk : GInst :=
  ⟨"g1", true, false, newLMState⟩

/-- Instance that was never initialised — its start fails. -/
def exInstBad : GInst :=
  ⟨"g2", false, false, newLMState⟩

/-- Initialised, not-running supervisor over one good and one bad
instance. -/
def exFleet : FleetState :=
  ⟨[exInstOk, exInstBad], true, false⟩

/-- Claim C8 witness: starting the concrete fleet fails on the second
instance; the first — already started — instance is stopped again, the
supervisor stays not running, and no panic escapes. -/
theorem managerStart_all_or_nothing_witness :
    (managerStart exFleet).err ≠ none
    ∧ (managerStart exFleet).fleet.running = false
    ∧ (managerStart exFleet).panicked = false
    ∧ ∀ g ∈ (managerStart exFleet).fleet.instances, g.running = false := by
  have h := managerStart_all_or_nothing exFleet rfl rfl (by decide)
  have hne : (managerStart exFleet).err ≠ none := by decide
  exact ⟨hne, (h.2 hne).1, (h.2 hne).2.1, (h.2 hne).2.2⟩

/-- Claim C9 counterexample: releasing the concrete session s1 (with
remote link r1) performs the adapter delete strictly between the lock
acquisition and the deferred unlock, and the concrete expiry sweep
launches its detached delete task while the lock is held — the lock is
held across adapter interaction in both code paths. -/
theorem lock_held_across_delete_counterexample :
    deleteWhileLocked (ReleaseTrace [exSessionRemote] "s1") = true
    ∧ spawnWhileLocked (cleanupExpiredTrace exCfg 1000 [exExpired]) = true := by
  decide

/-- A trace without synchronous adapter deletes never reports one under
the lock. -/
theorem deleteWhileLockedAux_of_no_delete (l : List PoolEvent)
    (h : ∀ e ∈ l, ∀ r, e ≠ PoolEvent.adapterDelete r) :
    ∀ depth, deleteWhileLockedAux depth l = false := by
  induction l with
  | nil => intro depth; rfl
  | cons e rest ih =>
    intro depth
    have hrest : ∀ x ∈ rest, ∀ r, x ≠ PoolEvent.adapterDelete r :=
      fun x hx => h x (List.mem_cons_of_mem e hx)
    cases e with
    | lockAcquire => exact ih hrest (depth + 1)
    | lockRelease => exact ih hrest (depth - 1)
    | spawnDelete r => exact ih hrest depth
    | adapterDelete r =>
      exact absurd rfl (h (PoolEvent.adapterDelete r) (List.mem_cons_self _ _) r)

/-- A nonempty block of spawn events inside the critical section makes
the spawn-under-lock scan fire. -/
theorem spawnWhileLockedAux_of_spawn_head (mid : List PoolEvent)
    (hne : mid ≠ [])
    (hall : ∀ e ∈ mid, ∃ r, e = PoolEvent.spawnDelete r) :
    spawnWhileLockedAux 1 (mid ++ [PoolEvent.lockRelease]) = true := by
  cases mid with
  | nil => exact absurd rfl hne
  | cons e rest =>
    obtain ⟨r, hr⟩ := hall e (List.mem_cons_self e rest)
    subst hr
    simp [spawnWhileLockedAux]

/-- Claim C9 (amended): `release` performs its adapter delete while
still holding the pool lock (the unlock is deferred past the call); the
expiry sweep performs no synchronous adapter delete itself, but it
launches its detached delete tasks while the lock is held — only the
I/O of those tasks runs outside the critical section. -/
theorem lock_discipline_of_release_and_sweep
    (cache : List Session) (id : String) (s : Session) (d : SessionDetails)
    (h1 : findSession cache id = some s) (h2 : s.anbox = some d) :
    ReleaseTrace cache id =
      [PoolEvent.lockAcquire, PoolEvent.adapterDelete d.id, PoolEvent.lockRelease]
    ∧ deleteWhileLocked (ReleaseTrace cache id) = true
    ∧ (∀ cfg now c, deleteWhileLocked (cleanupExpiredTrace cfg now c) = false)
    ∧ (∀ cfg now c s2 d2, s2 ∈ c → isExpired cfg now s2 = true → s2.anbox = some d2 →
        spawnWhileLocked (cleanupExpiredTrace cfg now c) = true) := by
  have etr : ReleaseTrace cache id =
      [PoolEvent.lockAcquire, PoolEvent.adapterDelete d.id, PoolEvent.lockRelease] := by
    simp [ReleaseTrace, h1, h2]
  refine ⟨etr, ?_, ?_, ?_⟩
  · rw [etr]
    rfl
  · intro cfg now c
    unfold cleanupExpiredTrace deleteWhileLocked
    apply deleteWhileLockedAux_of_no_delete
    intro e he r hc
    subst hc
    rcases List.mem_append.mp he with hl | hr
    · rcases List.mem_append.mp hl with ha | hm
      · simp at ha
      · rw [List.mem_filterMap] at hm
        obtain ⟨s3, _, hmap⟩ := hm
        rw [Option.map_eq_some'] at hmap
        obtain ⟨d3, _, hd3⟩ := hmap
        exact PoolEvent.noConfusion hd3
    · simp at hr
  · intro cfg now c s2 d2 hmem hexp hanbox
    unfold cleanupExpiredTrace spawnWhileLocked
    rw [List.singleton_append, List.cons_append]
    have hred : ∀ rest, spawnWhileLockedAux 0 (PoolEvent.lockAcquire :: rest) =
        spawnWhileLockedAux 1 rest := fun rest => rfl
    rw [hred]
    apply spawnWhileLockedAux_of_spawn_head
    · intro hempty
      have hin : PoolEvent.spawnDelete d2.id ∈
          ((c.filter (fun s => isExpired cfg now s)).filterMap
            (fun s => s.anbox.map (fun d => PoolEvent.spawnDelete d.id))) := by
        rw [List.mem_filterMap]
        exact ⟨s2, List.mem_filter.mpr ⟨hmem, hexp⟩, by rw [hanbox]; rfl⟩
      rw [hempty] at hin
      cases hin
    · intro e he
      rw [List.mem_filterMap] at he
      obtain ⟨s3, _, hmap⟩ := he
      rw [Option.map_eq_some'] at hmap
      obtain ⟨d3, _, hd3⟩ := hmap
      exact ⟨d3.id, hd3.symm⟩


/-- Claim C9 witness: the amended lock-discipline facts at the concrete
inputs. -/
theorem lock_discipline_of_release_and_sweep_witness :
    ReleaseTrace [exSessionRemote] "s1" =
      [PoolEvent.lockAcquire, PoolEvent.adapterDelete "r1", PoolEvent.lockRelease]
    ∧ deleteWhileLocked (cleanupExpiredTrace exCfg 1000 [exExpired]) = false
    ∧ spawnWhileLocked (cleanupExpiredTrace exCfg 1000 [exExpired]) = true := by
  have h := lock_discipline_of_release_and_sweep [exSessionRemote] "s1" exSessionRemote exDetail
    (by decide) (by decide)
  exact ⟨h.1, h.2.2.1 exCfg 1000 [exExpired],
    h.2.2.2 exCfg 1000 [exExpired] exExpired exDetail (by decide) (by decide) (by decide)⟩

/-- Claim C10: from a fresh manager, `start` succeeds, `stop` succeeds
and closes the stop channel, a second `start` succeeds again (the
started flag was reset) without recreating the channel — it stays
closed — and the second `stop` panics by closing the already-closed
channel, so start; stop; start; stop crashes instead of completing. -/
theorem lifecycle_second_stop_panics :
    (lmStart newLMState).2 = LMRes.ok
    ∧ (lmStop (lmStart newLMState).1).2 = LMRes.ok
    ∧ ((lmStop (lmStart newLMState).1).1).stopChClosed = true
    ∧ (lmStart (lmStop (lmStart newLMState).1).1).2 = LMRes.ok
    ∧ ((lmStart (lmStop (lmStart newLMState).1).1).1).stopChClosed = true
    ∧ (lmStop (lmStart (lmStop (lmStart newLMState).1).1).1).2 =
      LMRes.panicked "close of closed channel" := by
  decide
